import Mathlib

/-!
Shallow embedding of `src/tvpine-cli/src/datafeed/streamer.py`
(class `MultiExchangeStreamer`): candle records, the per-exchange interval
tables, the historical-fetch parsers, the live-message handlers, the
bounded timeline buffer with CSV checkpointing, and the stop / reconnect
lifecycle.  Timestamps are the millisecond integers fed to
`pd.to_datetime(_, unit="ms")` (a strictly monotone injection, so ordering
facts transfer); prices and volumes are carried as rationals; the
`confirmed` key, which is present on live candle dicts and absent on
historical ones, is carried as an `Option Bool` (`none` = key absent).
-/

namespace Streamer

/-- One candle record as built by the streamer: the dict keys
`timestamp, open, high, low, close, volume` plus the optional
`confirmed` key (`none` when the dict carries no such key, as in all
three historical fetchers; `some b` when a live handler sets it). -/
structure CandleRec where
  timestamp : Int
  openP : ℚ
  highP : ℚ
  lowP : ℚ
  closeP : ℚ
  volume : ℚ
  confirmed : Option Bool
deriving DecidableEq, Repr

/-- One raw kline row as delivered by an exchange in a historical or OKX
live payload: `[ts, open, high, low, close, volume, ...]`, already
extracted to numeric fields (the `int(...)`/`float(...)` casts of the
source applied). -/
structure KlineRow where
  ts : Int
  o : ℚ
  h : ℚ
  l : ℚ
  c : ℚ
  v : ℚ
deriving DecidableEq, Repr

/-- Table `EXCHANGES["bybit"]["intervals"]` from `streamer.py`. -/
def bybitIntervals : List (String × String) :=
  [("1s", "1"), ("1m", "1"), ("5m", "5"), ("15m", "15"),
   ("1h", "60"), ("4h", "240"), ("1D", "D")]

/-- Table `EXCHANGES["binance"]["intervals"]` from `streamer.py`. -/
def binanceIntervals : List (String × String) :=
  [("1s", "1s"), ("1m", "1m"), ("5m", "5m"), ("15m", "15m"),
   ("1h", "1h"), ("4h", "4h"), ("1D", "1d")]

/-- Table `EXCHANGES["okx"]["intervals"]` from `streamer.py`. -/
def okxIntervals : List (String × String) :=
  [("1m", "1m"), ("5m", "5m"), ("15m", "15m"),
   ("1h", "1H"), ("4h", "4H"), ("1D", "1D")]

/-- The interval table of an exchange, keyed by the exchange-selector
string used throughout `streamer.py`. -/
def intervalsOf (exchange : String) : List (String × String) :=
  if exchange = "bybit" then bybitIntervals
  else if exchange = "binance" then binanceIntervals
  else okxIntervals

/-- Fallback interval used by the `.get(self.timeframe, default)`
lookups: `"1"` for bybit (lines 85, 188), `"1m"` for binance
(lines 117, 237) and `"1m"` for okx (lines 145, 271). -/
def intervalDefault (exchange : String) : String :=
  if exchange = "bybit" then "1" else "1m"

/-- Lookup `EXCHANGES[exchange]["intervals"].get(timeframe, default)`. -/
def intervalCode (exchange : String) (timeframe : String) : String :=
  ((intervalsOf exchange).lookup timeframe).getD (intervalDefault exchange)

/-- Conversion of one raw kline row to a candle dict, as written inline in
all three historical fetchers: only the six OHLCV keys are set, no
`confirmed` key. -/
def parseHistoricalRow (r : KlineRow) : CandleRec :=
  { timestamp := r.ts, openP := r.o, highP := r.h, lowP := r.l,
    closeP := r.c, volume := r.v, confirmed := none }

/-- Timestamp-ascending comparison used by the `sorted(..., key=lambda x:
x["timestamp"])` calls; the `sorted` builtin of Python is a stable merge
sort, matched by `List.mergeSort`. -/
def tsLe (a b : CandleRec) : Bool := a.timestamp ≤ b.timestamp

/-- Method `_fetch_bybit_historical(limit)` past the HTTP call: the
request asks for `min(limit, 1000)` rows, and `rows` is the
`data["result"]["list"]` of a valid response; each row is converted and
the batch is sorted ascending by timestamp. -/
def fetchBybitHistorical (_limit : Nat) (rows : List KlineRow) : List CandleRec :=
  (rows.map parseHistoricalRow).mergeSort tsLe

/-- Method `_fetch_binance_historical(limit)` past the HTTP call: the
request asks for `min(limit, 1500)` rows, and `rows` is the JSON body of
a valid response; each row is converted and the batch is returned in
response order — this fetcher has no `sorted(...)` call. -/
def fetchBinanceHistorical (_limit : Nat) (rows : List KlineRow) : List CandleRec :=
  rows.map parseHistoricalRow

/-- Method `_fetch_okx_historical(limit)` past the HTTP call: the request
asks for `min(limit, 300)` rows, and `rows` is the `data["data"]` of a
valid response; each row is converted and the batch is sorted ascending
by timestamp. -/
def fetchOkxHistorical (_limit : Nat) (rows : List KlineRow) : List CandleRec :=
  (rows.map parseHistoricalRow).mergeSort tsLe

/-- The page-size cap each fetcher applies to the requested `limit`
(`min(limit, 1000 / 1500 / 300)`). -/
def maxPageSize (exchange : String) : Nat :=
  if exchange = "bybit" then 1000
  else if exchange = "binance" then 1500
  else 300

/-- A snapshot written by `_save_csv(prefix)`: its label and the candle
rows it serialized.  The CSV path is deterministic from
(symbol, timeframe, label), so the label identifies the file. -/
structure SnapshotWrite where
  label : String
  rows : List CandleRec
deriving DecidableEq, Repr

/-- The mutable state of a `MultiExchangeStreamer` instance, plus the log
of `_save_csv` writes it has performed (`writes`, earliest first).
`wsOpen` models whether the websocket connection handle is open. -/
structure StreamerState where
  symbol : String
  timeframe : String
  exchange : String
  candles : List CandleRec
  wsOpen : Bool
  running : Bool
  writes : List SnapshotWrite
deriving DecidableEq, Repr

/-- Method `_save_csv(label)`: returns immediately when the candle
buffer is empty (`if not self.candles: return`), otherwise writes the
current buffer to the CSV file for `label`. -/
def saveCsv (label : String) (s : StreamerState) : StreamerState :=
  if s.candles.isEmpty then s
  else { s with writes := s.writes ++ [⟨label, s.candles⟩] }

/-- The file system produced by a write log: the contents of the CSV file
for a label are those of the last write with that label
(`df.to_csv` overwrites). -/
def fsOf (writes : List SnapshotWrite) (label : String) : Option (List CandleRec) :=
  ((writes.filter (fun w => w.label = label)).getLast?).map (·.rows)

/-- The caller-observable state of a streamer: the running flag, the
candle buffer, the connection handle, and the on-disk snapshot files. -/
def observable (s : StreamerState) :
    Bool × List CandleRec × Bool × (String → Option (List CandleRec)) :=
  (s.running, s.candles, s.wsOpen, fsOf s.writes)

/-- The buffer-capping slice of `_process_candle`: `if len(self.candles)
> 10000: self.candles = self.candles[-10000:]`. -/
def truncateTimeline (cs : List CandleRec) : List CandleRec :=
  if cs.length > 10000 then cs.drop (cs.length - 10000) else cs

/-- Method `_process_candle(candle)`: append, cap the buffer at 10000 by
discarding from the front, then `if len(self.candles) % 100 == 0:
self._save_csv("live")`.  (The print and the observer callback do not
change the state; the callback invocation is exposed separately by the
live-message steps below.) -/
def processCandle (s : StreamerState) (c : CandleRec) : StreamerState :=
  let s1 := { s with candles := truncateTimeline (s.candles ++ [c]) }
  if s1.candles.length % 100 = 0 then saveCsv "live" s1 else s1

/-- Method `stop()`: set the running flag false, close the websocket if
there is one, and call `_save_csv("final")`. -/
def stop (s : StreamerState) : StreamerState :=
  saveCsv "final" { s with running := false, wsOpen := false }

/-- Method `fetch_historical(limit)` dispatch on the exchange selector,
reduced to the pure part: the parsed rows of one valid response mapped
through the per-exchange fetcher. -/
def fetchHistoricalData (exchange : String) (limit : Nat) (rows : List KlineRow) :
    List CandleRec :=
  if exchange = "bybit" then fetchBybitHistorical limit rows
  else if exchange = "binance" then fetchBinanceHistorical limit rows
  else fetchOkxHistorical limit rows

/-- The candle dict of one Bybit kline push (`data["data"][0]`): `start`
in ms and OHLCV fields, plus the optional `confirm` key read by
`candle_data.get("confirm", False)` (`none` = key absent). -/
structure BybitLiveRow where
  start : Int
  o : ℚ
  h : ℚ
  l : ℚ
  c : ℚ
  v : ℚ
  confirm : Option Bool
deriving DecidableEq, Repr

/-- A decoded Bybit websocket message: `topic` is
`data.get("topic","")` (the empty string when the key is absent) and
`payload` is `data["data"]` when the `"data"` key is present. -/
structure BybitLiveMsg where
  topic : String
  payload : Option (List BybitLiveRow)
deriving DecidableEq, Repr

/-- The Bybit `on_message` body (lines 190-206): the candle branch runs
only when the `"data"` key is present AND the text `kline.<interval>`
occurs in the topic; then `data["data"][0]` is read (an exception — caught and
printed by the surrounding `try/except` — when the list is empty) and a
candle with `confirmed = candle_data.get("confirm", False)` is produced.
`.ok none` = message silently ignored; `.error` = caught exception. -/
def bybitParseLive (interval : String) (msg : BybitLiveMsg) :
    Except String (Option CandleRec) :=
  match msg.payload with
  | Option.none => .ok none
  | Option.some rows =>
      if ("kline." ++ interval).toList <:+: msg.topic.toList then
        match rows with
        | [] => .error "WS message error: list index out of range"
        | r :: _ =>
            .ok (some { timestamp := r.start, openP := r.o, highP := r.h,
                        lowP := r.l, closeP := r.c, volume := r.v,
                        confirmed := some (r.confirm.getD false) })
      else .ok none

/-- One Bybit message handled against the session state: when a candle is
parsed it goes through `_process_candle` and the observer callback is
invoked with it (second component `some c`); otherwise — ignored message
or caught exception — the state is untouched and no callback fires. -/
def bybitOnMessageStep (interval : String) (s : StreamerState) (msg : BybitLiveMsg) :
    StreamerState × Option CandleRec :=
  match bybitParseLive interval msg with
  | .ok (Option.some c) => (processCandle s c, some c)
  | _ => (s, none)

/-- The kline object of a Binance push (`data["k"]`): open time `t`,
OHLCV strings already parsed, and the closed flag `x`. -/
structure BinanceKline where
  t : Int
  o : ℚ
  h : ℚ
  l : ℚ
  c : ℚ
  v : ℚ
  x : Bool
deriving DecidableEq, Repr

/-- A decoded Binance websocket message: `k` is `data["k"]` when the
`"k"` key is present. -/
structure BinanceLiveMsg where
  k : Option BinanceKline
deriving DecidableEq, Repr

/-- The Binance `on_message` body (lines 241-257): any message carrying a
`"k"` key yields a candle with `confirmed = kline["x"]`; others are
ignored. -/
def binanceParseLive (msg : BinanceLiveMsg) : Option CandleRec :=
  match msg.k with
  | Option.none => none
  | Option.some kl =>
      some { timestamp := kl.t, openP := kl.o, highP := kl.h, lowP := kl.l,
             closeP := kl.c, volume := kl.v, confirmed := some kl.x }

/-- A decoded OKX websocket message: `payload` is `data["data"]` when
the `"data"` key is present. -/
structure OkxLiveMsg where
  payload : Option (List KlineRow)
deriving DecidableEq, Repr

/-- The OKX `on_message` body (lines 274-290): every row of a message
carrying a `"data"` key becomes a candle with the confirmed field set
to the literal `True`; each is fed to `_process_candle` in order. -/
def okxParseLive (msg : OkxLiveMsg) : List CandleRec :=
  match msg.payload with
  | Option.none => []
  | Option.some rows =>
      rows.map (fun r =>
        { timestamp := r.ts, openP := r.o, highP := r.h, lowP := r.l,
          closeP := r.c, volume := r.v, confirmed := some true })

/-- What the controller does when the transport connection closes. -/
inductive CloseBehavior where
  | reconnect (delaySec : Nat) (subscribeArg : String)
  | noAction
deriving DecidableEq, Repr

/-- The single `args` entry of the Bybit subscribe request sent by
`on_open`: the text `kline.<interval>.<symbol>` with the interval looked
up from the table (same lookup on connect and on every reconnect, so the
re-sent payload is the same while state is unchanged). -/
def bybitSubscribeArg (s : StreamerState) : String :=
  "kline." ++ intervalCode "bybit" s.timeframe ++ "." ++ s.symbol

/-- The close-event behavior of a session.  Only the Bybit
`WebSocketApp` registers an `on_close` handler (lines 219-224): if
`self.running` it sleeps 5 seconds and calls `_start_bybit_ws()` again,
whose `on_open` re-sends the subscribe payload.  The Binance (lines
262-266) and OKX (lines 300-304) `WebSocketApp`s are constructed with no
`on_close` handler at all, so a transport close triggers nothing for
them, whatever the running flag. -/
def onTransportClose (s : StreamerState) : CloseBehavior :=
  if s.exchange = "bybit" then
    (if s.running then .reconnect 5 (bybitSubscribeArg s) else .noAction)
  else .noAction

/-- Successive `_process_candle` calls for a stream of live candles. -/
def appendAll (s : StreamerState) (cs : List CandleRec) : StreamerState :=
  cs.foldl processCandle s

/-- Page-size clamp sent in the Bybit request params:
`min(limit, 1000)`. -/
def bybitRequestLimit (limit : Nat) : Nat := min limit 1000

/-- Page-size clamp sent in the Binance request params:
`min(limit, 1500)`. -/
def binanceRequestLimit (limit : Nat) : Nat := min limit 1500

/-- Page-size clamp sent in the OKX request params:
`min(limit, 300)`. -/
def okxRequestLimit (limit : Nat) : Nat := min limit 300

/-- A concrete candle record used as input for the concrete instances. -/
def sampleCandle : CandleRec :=
  { timestamp := 1700000000000, openP := 1, highP := 2, lowP := 0, closeP := 1,
    volume := 3, confirmed := none }

/-- A concrete kline row. -/
def sampleRow : KlineRow :=
  { ts := 1700000000000, o := 1, h := 2, l := 0, c := 1, v := 3 }

/-- A concrete kline row one minute later than `sampleRow`. -/
def sampleRowLater : KlineRow :=
  { ts := 1700000060000, o := 1, h := 2, l := 0, c := 1, v := 3 }

/-- A freshly started Bybit session with an empty candle buffer. -/
def sampleEmpty : StreamerState :=
  { symbol := "BTCUSDT", timeframe := "1m", exchange := "bybit",
    candles := [], wsOpen := true, running := true, writes := [] }

/-- A running Bybit session holding one candle. -/
def sampleOne : StreamerState :=
  { symbol := "BTCUSDT", timeframe := "1m", exchange := "bybit",
    candles := [sampleCandle], wsOpen := true, running := true, writes := [] }

/-- A running Binance session (as after `start_live` with
`exchange = "binance"`). -/
def sampleBinanceRunning : StreamerState :=
  { symbol := "BTCUSDT", timeframe := "1m", exchange := "binance",
    candles := [], wsOpen := true, running := true, writes := [] }

/-- A running Bybit session holding 99 candles, one short of the live
checkpoint threshold. -/
def sample99 : StreamerState :=
  { symbol := "BTCUSDT", timeframe := "1m", exchange := "bybit",
    candles := List.replicate 99 sampleCandle, wsOpen := true, running := true,
    writes := [] }

/-- A Bybit push message on a non-kline topic that still carries a
`data` payload. -/
def sampleMismatchMsg : BybitLiveMsg :=
  { topic := "tickers.BTCUSDT",
    payload := some [{ start := 1700000000000, o := 1, h := 2, l := 0, c := 1,
                       v := 3, confirm := some true }] }

/-- A Binance historical response whose two rows arrive newest-first. -/
def unsortedRows : List KlineRow := [sampleRowLater, sampleRow]

/-- An OKX push message carrying one kline row. -/
def sampleOkxMsg : OkxLiveMsg := { payload := some [sampleRow] }

/-- The candle the OKX handler builds from `sampleRow`. -/
def sampleOkxCandle : CandleRec :=
  { timestamp := sampleRow.ts, openP := sampleRow.o, highP := sampleRow.h,
    lowP := sampleRow.l, closeP := sampleRow.c, volume := sampleRow.v,
    confirmed := some true }

/-! Helper lemmas about the timeline buffer, the checkpointer and the
stop path. -/

theorem truncateTimeline_length (cs : List CandleRec) :
    (truncateTimeline cs).length = min cs.length 10000 := by
  unfold truncateTimeline
  split <;> simp <;> omega

theorem foldTrunc_eq (cs : List CandleRec) : ∀ (A : List CandleRec), A.length ≤ 10000 →
    cs.foldl (fun acc c => truncateTimeline (acc ++ [c])) A
      = (A ++ cs).drop (A.length + cs.length - 10000) := by
  induction cs with
  | nil =>
      intro A h
      simp only [List.foldl_nil, List.append_nil, List.length_nil, Nat.add_zero,
        Nat.sub_eq_zero_of_le h, List.drop_zero]
  | cons c cs ih =>
      intro A h
      have hlen : (truncateTimeline (A ++ [c])).length ≤ 10000 := by
        rw [truncateTimeline_length]; omega
      rw [List.foldl_cons, ih _ hlen]
      by_cases hc : (A ++ [c]).length > 10000
      · unfold truncateTimeline
        rw [if_pos hc]
        have hA : A.length = 10000 := by
          simp only [List.length_append, List.length_cons, List.length_nil] at hc
          omega
        have hk : (A ++ [c]).length - 10000 = 1 := by
          simp only [List.length_append, List.length_cons, List.length_nil, hA]
        rw [hk]
        have hdl : ((A ++ [c]).drop 1).length = 10000 := by
          simp only [List.length_drop, List.length_append, List.length_cons,
            List.length_nil, hA]
        rw [hdl]
        rw [← List.drop_append_of_le_length
          (show 1 ≤ (A ++ [c]).length by simp)]
        rw [List.drop_drop]
        have e1 : (A ++ [c]) ++ cs = A ++ c :: cs := by simp
        rw [e1]
        have e2 : 1 + (10000 + cs.length - 10000)
            = A.length + (c :: cs).length - 10000 := by
          simp only [List.length_cons, hA]
          omega
        rw [e2]
      · unfold truncateTimeline
        rw [if_neg hc]
        have e1 : (A ++ [c]) ++ cs = A ++ c :: cs := by simp
        have e2 : (A ++ [c]).length + cs.length - 10000
            = A.length + (c :: cs).length - 10000 := by
          simp only [List.length_append, List.length_cons, List.length_nil]
          omega
        rw [e1, e2]

theorem saveCsv_candles (label : String) (s : StreamerState) :
    (saveCsv label s).candles = s.candles := by
  unfold saveCsv; split <;> rfl

theorem processCandle_candles (s : StreamerState) (c : CandleRec) :
    (processCandle s c).candles = truncateTimeline (s.candles ++ [c]) := by
  unfold processCandle
  dsimp only
  split
  · rw [saveCsv_candles]
  · rfl

theorem appendAll_candles (cs : List CandleRec) (s : StreamerState)
    (h : s.candles.length ≤ 10000) :
    (appendAll s cs).candles
      = (s.candles ++ cs).drop (s.candles.length + cs.length - 10000) := by
  rw [← foldTrunc_eq cs s.candles h]
  induction cs generalizing s with
  | nil => simp [appendAll]
  | cons c cs ih =>
      unfold appendAll at ih ⊢
      rw [List.foldl_cons, List.foldl_cons,
        ih (processCandle s c)
          (by rw [processCandle_candles, truncateTimeline_length]; omega),
        processCandle_candles]

theorem stop_of_empty (s : StreamerState) (h : s.candles = []) :
    stop s = { s with running := false, wsOpen := false } := by
  unfold stop saveCsv
  dsimp only
  rw [if_pos (by simp [h])]

theorem stop_of_ne (s : StreamerState) (h : s.candles ≠ []) :
    stop s = { s with running := false, wsOpen := false,
                      writes := s.writes ++ [⟨"final", s.candles⟩] } := by
  unfold stop saveCsv
  dsimp only
  rw [if_neg (by simp [h])]

theorem fsOf_append_dup (A : List SnapshotWrite) (w : SnapshotWrite) (l : String) :
    fsOf (A ++ [w, w]) l = fsOf (A ++ [w]) l := by
  unfold fsOf
  rw [List.filter_append, List.filter_append]
  by_cases hw : w.label = l
  · simp [hw]
  · simp [hw]

theorem saveCsv_of_ne (label : String) (s : StreamerState) (h : s.candles ≠ []) :
    saveCsv label s = { s with writes := s.writes ++ [⟨label, s.candles⟩] } := by
  unfold saveCsv
  rw [if_neg (by simp [h])]

theorem stop_running (s : StreamerState) : (stop s).running = false := by
  by_cases h : s.candles = []
  · rw [stop_of_empty s h]
  · rw [stop_of_ne s h]

theorem stop_exchange (s : StreamerState) : (stop s).exchange = s.exchange := by
  by_cases h : s.candles = []
  · rw [stop_of_empty s h]
  · rw [stop_of_ne s h]

theorem tsLe_trans : ∀ (a b c : CandleRec), tsLe a b → tsLe b c → tsLe a c := by
  intro a b c hab hbc
  unfold tsLe at *
  simp at *
  omega

theorem tsLe_total : ∀ (a b : CandleRec), tsLe a b || tsLe b a := by
  intro a b
  unfold tsLe
  simp
  omega

theorem fetchBybit_sorted (limit : Nat) (rows : List KlineRow) :
    (fetchBybitHistorical limit rows).Pairwise
      (fun a b => a.timestamp ≤ b.timestamp) := by
  have h := @List.sorted_mergeSort CandleRec tsLe tsLe_trans tsLe_total
    (rows.map parseHistoricalRow)
  unfold fetchBybitHistorical
  refine h.imp ?_
  intro a b hab
  simpa [tsLe] using hab

theorem fetchBybit_length (limit : Nat) (rows : List KlineRow) :
    (fetchBybitHistorical limit rows).length = rows.length := by
  unfold fetchBybitHistorical
  rw [List.length_mergeSort, List.length_map]

/-! Claim theorems. -/

/-- C1 (counterexample): the claim says every exchange reconnects after a
close while the running flag is true, but the Binance (and OKX)
`WebSocketApp` registers no `on_close` handler at all, so a running
Binance session does nothing when the transport closes. -/
theorem binance_close_while_running_no_reconnect :
    sampleBinanceRunning.running = true ∧
    onTransportClose sampleBinanceRunning = CloseBehavior.noAction :=
  ⟨rfl, rfl⟩

/-- C1 (amended): only a Bybit session reconnects — when the transport
closes while the running flag is true it waits the fixed 5-second delay
and reconnects, re-sending the same subscription payload (the
deterministic `bybitSubscribeArg` of the unchanged state); when the flag
is false, and in particular after `stop()`, it never reconnects.
Sessions on any other exchange never reconnect, whatever the flag. -/
theorem close_reconnect_policy (s : StreamerState) :
    (s.exchange = "bybit" → s.running = true →
        onTransportClose s = CloseBehavior.reconnect 5 (bybitSubscribeArg s)) ∧
    (s.exchange = "bybit" → s.running = false →
        onTransportClose s = CloseBehavior.noAction) ∧
    (onTransportClose (stop s) = CloseBehavior.noAction) ∧
    (s.exchange ≠ "bybit" → onTransportClose s = CloseBehavior.noAction) := by
  refine ⟨?_, ?_, ?_, ?_⟩
  · intro hex hrun
    unfold onTransportClose
    rw [if_pos hex, if_pos hrun]
  · intro hex hrun
    unfold onTransportClose
    rw [if_pos hex, if_neg (by simp [hrun])]
  · unfold onTransportClose
    rw [stop_running]
    by_cases hex : (stop s).exchange = "bybit"
    · rw [if_pos hex]
      simp
    · rw [if_neg hex]
  · intro hex
    unfold onTransportClose
    rw [if_neg hex]

/-- C1 (witness): a running Bybit session reconnects after 5 seconds with
its subscription payload. -/
theorem close_reconnect_policy_witness :
    (sampleEmpty.exchange = "bybit" ∧ sampleEmpty.running = true) ∧
    onTransportClose sampleEmpty
      = CloseBehavior.reconnect 5 (bybitSubscribeArg sampleEmpty) :=
  ⟨⟨rfl, rfl⟩, (close_reconnect_policy sampleEmpty).1 rfl rfl⟩

/-- C2 (counterexample): the claim says every exchange returns candles
sorted non-decreasing by timestamp, but the Binance fetcher has no sort:
a valid two-row response delivered newest-first (well within the page
bound) comes back out of order. -/
theorem binance_historical_not_sorted :
    unsortedRows.length ≤ binanceRequestLimit 5 ∧
    ¬ ((fetchBinanceHistorical 5 unsortedRows).Pairwise
        (fun a b => a.timestamp ≤ b.timestamp)) := by
  constructor
  · decide
  · decide

/-- C2 (amended): for a valid historical response whose row count honors
the page-size parameter the code requests (`min(limit, cap)` with caps
1000 for bybit, 1500 for binance, 300 for okx), the Bybit and OKX
fetchers return a sequence sorted non-decreasing by timestamp of length
at most `min(limit, cap)`; the Binance fetcher obeys the same length
bound but returns the rows in response order, without sorting. -/
theorem historical_sorted_and_bounded (limit : Nat) (rows : List KlineRow) :
    (rows.length ≤ bybitRequestLimit limit →
        (fetchBybitHistorical limit rows).Pairwise
            (fun a b => a.timestamp ≤ b.timestamp) ∧
        (fetchBybitHistorical limit rows).length ≤ min limit (maxPageSize "bybit")) ∧
    (rows.length ≤ okxRequestLimit limit →
        (fetchOkxHistorical limit rows).Pairwise
            (fun a b => a.timestamp ≤ b.timestamp) ∧
        (fetchOkxHistorical limit rows).length ≤ min limit (maxPageSize "okx")) ∧
    (rows.length ≤ binanceRequestLimit limit →
        (fetchBinanceHistorical limit rows).length
            ≤ min limit (maxPageSize "binance") ∧
        fetchBinanceHistorical limit rows = rows.map parseHistoricalRow) := by
  refine ⟨fun hresp => ⟨?_, ?_⟩, fun hresp => ⟨?_, ?_⟩, fun hresp => ⟨?_, rfl⟩⟩
  · exact fetchBybit_sorted limit rows
  · rw [fetchBybit_length]
    simpa [bybitRequestLimit, maxPageSize] using hresp
  · have h := @List.sorted_mergeSort CandleRec tsLe tsLe_trans tsLe_total
      (rows.map parseHistoricalRow)
    unfold fetchOkxHistorical
    refine h.imp ?_
    intro a b hab
    simpa [tsLe] using hab
  · unfold fetchOkxHistorical
    rw [List.length_mergeSort, List.length_map]
    simpa [okxRequestLimit, maxPageSize] using hresp
  · unfold fetchBinanceHistorical
    rw [List.length_map]
    simpa [binanceRequestLimit, maxPageSize] using hresp

/-- C2 (witness): a two-row Bybit response with limit 5 comes back sorted
and within the bound. -/
theorem historical_sorted_and_bounded_witness :
    ([sampleRow, sampleRowLater].length ≤ bybitRequestLimit 5) ∧
    ((fetchBybitHistorical 5 [sampleRow, sampleRowLater]).Pairwise
        (fun a b => a.timestamp ≤ b.timestamp) ∧
     (fetchBybitHistorical 5 [sampleRow, sampleRowLater]).length
        ≤ min 5 (maxPageSize "bybit")) :=
  ⟨by decide,
   (historical_sorted_and_bounded 5 [sampleRow, sampleRowLater]).1 (by decide)⟩

/-- C3: the timeline buffer length never exceeds 10000 after processing a
candle, and appending 10050 live candles to a fresh session leaves
exactly the 10000 most recently appended candles, in append order. -/
theorem timeline_cap_and_retention :
    (∀ (s : StreamerState) (c : CandleRec),
        (processCandle s c).candles.length ≤ 10000) ∧
    (∀ (s : StreamerState) (cs : List CandleRec),
        s.candles = [] → cs.length = 10050 →
        (appendAll s cs).candles = cs.drop 50 ∧
        (appendAll s cs).candles.length = 10000) := by
  constructor
  · intro s c
    rw [processCandle_candles, truncateTimeline_length]
    omega
  · intro s cs hemp hlen
    have hb : s.candles.length ≤ 10000 := by rw [hemp]; simp
    rw [appendAll_candles cs s hb, hemp]
    have h1 : List.length ([] : List CandleRec) + cs.length - 10000 = 50 := by
      rw [List.length_nil, hlen]
    rw [h1, List.nil_append]
    refine ⟨rfl, ?_⟩
    rw [List.length_drop, hlen]

/-- C3 (witness): 10050 copies of a concrete candle appended to a fresh
session leave the last 10000 of them. -/
theorem timeline_cap_and_retention_witness :
    (sampleEmpty.candles = [] ∧ (List.replicate 10050 sampleCandle).length = 10050) ∧
    ((appendAll sampleEmpty (List.replicate 10050 sampleCandle)).candles
        = (List.replicate 10050 sampleCandle).drop 50 ∧
     (appendAll sampleEmpty (List.replicate 10050 sampleCandle)).candles.length
        = 10000) :=
  ⟨⟨rfl, by rw [List.length_replicate]⟩,
   timeline_cap_and_retention.2 sampleEmpty (List.replicate 10050 sampleCandle)
     rfl (by rw [List.length_replicate])⟩

/-- C4: a Bybit live message whose topic does not contain the subscribed
kline topic text is silently ignored: the parse yields `.ok none` — no
candle, no raised error — and the handler step leaves the state unchanged
and invokes no observer callback. -/
theorem unmatched_topic_ignored (interval : String) (s : StreamerState)
    (msg : BybitLiveMsg)
    (h : ¬ (("kline." ++ interval).toList <:+: msg.topic.toList)) :
    bybitParseLive interval msg = .ok none ∧
    bybitOnMessageStep interval s msg = (s, none) := by
  have hp : bybitParseLive interval msg = .ok none := by
    unfold bybitParseLive
    cases msg.payload with
    | none => rfl
    | some rows =>
        dsimp only
        rw [if_neg h]
  refine ⟨hp, ?_⟩
  unfold bybitOnMessageStep
  rw [hp]

/-- C4 (witness): a ticker-topic message carrying a kline-shaped payload
is ignored by a session subscribed to 1-minute klines. -/
theorem unmatched_topic_ignored_witness :
    (¬ (("kline." ++ "1").toList <:+: sampleMismatchMsg.topic.toList)) ∧
    (bybitParseLive "1" sampleMismatchMsg = .ok none ∧
     bybitOnMessageStep "1" sampleEmpty sampleMismatchMsg = (sampleEmpty, none)) :=
  ⟨by decide, unmatched_topic_ignored "1" sampleEmpty sampleMismatchMsg (by decide)⟩

/-- C5 (counterexample): the claim says historical candles have their
confirmed flag equal to true, but the historical fetchers never set the
key at all, so there is a fetched candle whose confirmed field is not
`some true`. -/
theorem historical_confirmed_not_true :
    ¬ (∀ c ∈ fetchHistoricalData "bybit" 1 [sampleRow], c.confirmed = some true) := by
  intro hall
  have hmem : parseHistoricalRow sampleRow ∈ fetchHistoricalData "bybit" 1 [sampleRow] := by
    simp [fetchHistoricalData, fetchBybitHistorical]
  have := hall _ hmem
  simp [parseHistoricalRow] at this

/-- C5 (amended): every candle returned by a historical fetch, for every
exchange, carries no confirmed key at all (`confirmed = none`); the flag
is set only by the live handlers. -/
theorem historical_confirmed_flag_absent (exchange : String) (limit : Nat)
    (rows : List KlineRow) (c : CandleRec)
    (hc : c ∈ fetchHistoricalData exchange limit rows) :
    c.confirmed = none := by
  unfold fetchHistoricalData fetchBybitHistorical fetchBinanceHistorical
    fetchOkxHistorical at hc
  have hmem : c ∈ rows.map parseHistoricalRow := by
    split at hc
    · exact List.mem_mergeSort.1 hc
    · split at hc
      · exact hc
      · exact List.mem_mergeSort.1 hc
  obtain ⟨r, _, hr⟩ := List.mem_map.1 hmem
  rw [← hr]
  rfl

/-- C5 (witness): the candle fetched from a one-row Bybit response has no
confirmed key. -/
theorem historical_confirmed_flag_absent_witness :
    (parseHistoricalRow sampleRow ∈ fetchHistoricalData "bybit" 1 [sampleRow]) ∧
    (parseHistoricalRow sampleRow).confirmed = none :=
  ⟨by simp [fetchHistoricalData, fetchBybitHistorical],
   historical_confirmed_flag_absent "bybit" 1 [sampleRow] _
     (by simp [fetchHistoricalData, fetchBybitHistorical])⟩

/-- C6 (counterexample): the claim says `stop()` writes a final
checkpoint unconditionally, even on an empty timeline, but `_save_csv`
returns without writing when the buffer is empty: stopping a fresh
session writes nothing at all. -/
theorem stop_on_empty_writes_no_final :
    sampleEmpty.candles = [] ∧ (stop sampleEmpty).writes = [] := by
  refine ⟨rfl, ?_⟩
  rw [stop_of_empty sampleEmpty rfl]
  rfl

/-- C6 (amended): `stop()` always sets the running flag false and closes
the connection, leaves the buffer untouched, and writes the final
checkpoint exactly when the timeline is non-empty; on an empty buffer no
snapshot is written. -/
theorem stop_behavior (s : StreamerState) :
    (stop s).running = false ∧ (stop s).wsOpen = false ∧
    (stop s).candles = s.candles ∧
    (s.candles ≠ [] → (stop s).writes = s.writes ++ [⟨"final", s.candles⟩]) ∧
    (s.candles = [] → (stop s).writes = s.writes) := by
  by_cases h : s.candles = []
  · rw [stop_of_empty s h]
    exact ⟨rfl, rfl, rfl, fun hne => absurd h hne, fun _ => rfl⟩
  · rw [stop_of_ne s h]
    exact ⟨rfl, rfl, rfl, fun _ => rfl, fun he => absurd he h⟩

/-- C6 (witness): stopping a session holding one candle appends exactly
one final write. -/
theorem stop_behavior_witness :
    (sampleOne.candles ≠ []) ∧
    (stop sampleOne).writes = sampleOne.writes ++ [⟨"final", sampleOne.candles⟩] :=
  ⟨by simp [sampleOne], (stop_behavior sampleOne).2.2.2.1 (by simp [sampleOne])⟩

/-- C7 (counterexample): the claim says two successive `stop()` calls
produce exactly one final checkpoint, but on a session with an empty
timeline they produce none: zero writes carry the final label. -/
theorem double_stop_on_empty_no_final :
    sampleEmpty.candles = [] ∧
    ((stop (stop sampleEmpty)).writes.filter (fun w => w.label = "final")).length
      = 0 := by
  refine ⟨rfl, ?_⟩
  rw [stop_of_empty sampleEmpty rfl, stop_of_empty _ rfl]
  rfl

/-- C7 (amended): `stop()` is idempotent and total (so a second call
cannot raise): the observable state — running flag, timeline, connection
handle and on-disk snapshot files — after two calls equals that after
one, and when the timeline is non-empty the final snapshot file exists
exactly once, holding the buffer contents (repeated writes overwrite the
same path). -/
theorem stop_idempotent (s : StreamerState) :
    observable (stop (stop s)) = observable (stop s) ∧
    (s.candles ≠ [] → fsOf (stop (stop s)).writes "final" = some s.candles) := by
  by_cases h : s.candles = []
  · rw [stop_of_empty s h, stop_of_empty _ (by simpa using h)]
    exact ⟨rfl, fun hne => absurd h hne⟩
  · rw [stop_of_ne s h, stop_of_ne _ (by simpa using h)]
    dsimp only
    constructor
    · unfold observable
      dsimp only
      congr 1
      congr 1
      congr 1
      funext l
      rw [List.append_assoc]
      exact fsOf_append_dup s.writes (SnapshotWrite.mk "final" s.candles) l
    · intro hne
      unfold fsOf
      simp

/-- C7 (witness): double-stopping a one-candle session leaves one final
file holding that candle. -/
theorem stop_idempotent_witness :
    (sampleOne.candles ≠ []) ∧
    fsOf (stop (stop sampleOne)).writes "final" = some sampleOne.candles :=
  ⟨by simp [sampleOne], (stop_idempotent sampleOne).2 (by simp [sampleOne])⟩

/-- C8: after `_process_candle`, a checkpoint labelled live is written
precisely when the resulting buffer length (after the append and the
10000-cap truncation) is an exact multiple of 100 — the trigger is the
buffer length itself, no dedicated counter exists in the state. -/
theorem live_checkpoint_iff_length_multiple_of_100 (s : StreamerState)
    (c : CandleRec) :
    ((processCandle s c).candles.length % 100 = 0 →
       (processCandle s c).writes
         = s.writes ++ [⟨"live", (processCandle s c).candles⟩]) ∧
    ((processCandle s c).candles.length % 100 ≠ 0 →
       (processCandle s c).writes = s.writes) := by
  have hcand := processCandle_candles s c
  have hne : truncateTimeline (s.candles ++ [c]) ≠ [] := by
    have := truncateTimeline_length (s.candles ++ [c])
    intro he
    rw [he] at this
    simp at this
    omega
  unfold processCandle
  dsimp only
  by_cases hmod : (truncateTimeline (s.candles ++ [c])).length % 100 = 0
  · rw [if_pos hmod]
    rw [saveCsv_of_ne _ _ (by simpa using hne)]
    constructor
    · intro _
      rfl
    · intro hnm
      exact absurd (by simpa using hmod) hnm
  · rw [if_neg hmod]
    constructor
    · intro hm
      exact absurd (by simpa using hm) hmod
    · intro _
      rfl

/-- C8 (witness): the 100th candle of a session lands the buffer length
on a multiple of 100 and triggers the live checkpoint. -/
theorem live_checkpoint_witness :
    ((processCandle sample99 sampleCandle).candles.length % 100 = 0) ∧
    (processCandle sample99 sampleCandle).writes
      = sample99.writes ++ [⟨"live", (processCandle sample99 sampleCandle).candles⟩] :=
  ⟨by decide,
   (live_checkpoint_iff_length_multiple_of_100 sample99 sampleCandle).1 (by decide)⟩

/-- C9: a timeframe absent from an exchange interval table falls back to
the fixed documented default (1 for bybit, 1m for binance and okx), and
for every timeframe among 1m, 5m, 15m, 1h, 4h, 1D each exchange lookup
returns a value present in that exchange interval table. -/
theorem interval_fallback_and_coverage :
    (∀ tf : String, bybitIntervals.lookup tf = none → intervalCode "bybit" tf = "1") ∧
    (∀ tf : String, binanceIntervals.lookup tf = none →
        intervalCode "binance" tf = "1m") ∧
    (∀ tf : String, okxIntervals.lookup tf = none → intervalCode "okx" tf = "1m") ∧
    (∀ tf ∈ ["1m", "5m", "15m", "1h", "4h", "1D"],
        (∃ p ∈ bybitIntervals, p.2 = intervalCode "bybit" tf) ∧
        (∃ p ∈ binanceIntervals, p.2 = intervalCode "binance" tf) ∧
        (∃ p ∈ okxIntervals, p.2 = intervalCode "okx" tf)) := by
  refine ⟨?_, ?_, ?_, by decide⟩
  all_goals
    intro tf h
    simp [intervalCode, intervalsOf, intervalDefault, h]

/-- C9 (witness): the 2h timeframe is absent from the Bybit table and
falls back to 1, while 1m resolves to a tabled value. -/
theorem interval_fallback_witness :
    (bybitIntervals.lookup "2h" = none ∧ intervalCode "bybit" "2h" = "1") ∧
    ("1m" ∈ ["1m", "5m", "15m", "1h", "4h", "1D"] ∧
     ∃ p ∈ bybitIntervals, p.2 = intervalCode "bybit" "1m") :=
  ⟨⟨by decide, interval_fallback_and_coverage.1 "2h" (by decide)⟩,
   ⟨by simp, (interval_fallback_and_coverage.2.2.2 "1m" (by simp)).1⟩⟩

/-- C10: every candle the OKX live handler produces has its confirmed
flag set to `some true`, unconditionally — the handler hard-codes the
value and never inspects whether the bar is closed. -/
theorem okx_live_always_confirmed (msg : OkxLiveMsg) (c : CandleRec)
    (hc : c ∈ okxParseLive msg) : c.confirmed = some true := by
  unfold okxParseLive at hc
  cases hpay : msg.payload with
  | none =>
      rw [hpay] at hc
      simp at hc
  | some rows =>
      rw [hpay] at hc
      obtain ⟨r, _, hr⟩ := List.mem_map.1 hc
      rw [← hr]

/-- C10 (witness): the candle built from a concrete OKX push row carries
`confirmed = some true`. -/
theorem okx_live_always_confirmed_witness :
    (sampleOkxCandle ∈ okxParseLive sampleOkxMsg) ∧
    sampleOkxCandle.confirmed = some true :=
  ⟨by decide, okx_live_always_confirmed sampleOkxMsg sampleOkxCandle (by decide)⟩

end Streamer
